import Mathlib

/-!
Verification development for pbmetric's contribution-attribution engine.

The Rust sources are embedded shallowly:
* `src/git.rs`: `parse_blame` (per-line email/timestamp extraction and the
  time-window test) and `blame_stats` (repository walk, exclusion filtering,
  blame invocation, per-file merge).
* `src/report.rs`: `repo_loc` (multi-repository merge and its error handling),
  the `lines_contributed` distribution loop of `agenda`, and
  `print_unknown_emails`.
* `src/github.rs`: `recent_issues_per_login` (per-login issue counters).
* `src/issue.rs`: `individual_stats`.

Modelling conventions:
* Rust `&str` values are `List Char`; every byte handled by the relevant code
  paths is ASCII, where byte indices and char indices coincide.  Rust slicing
  `line[i..]` with `i` past the end of the string panics; the model makes that
  explicit as a `panicked` outcome.
* `chrono::DateTime` instants are `Int` seconds relative to the Unix epoch.
  `DateTime` comparison and `with_timezone` in chrono compare/preserve the
  underlying instant, so the window test compares these integers directly.
* `HashMap`/`BTreeMap` values are association lists; the entry-API pattern
  `map.entry(k).or_insert(zero)` followed by field updates is modelled by
  updating the first entry with the given key (appending a fresh zero entry
  when the key is absent).  Iteration order of a `HashMap` is arbitrary in
  Rust, so statements about map results are made via lookups or concern
  inputs where the order is forced.
-/

namespace Pbmetric

/-- Index of the first occurrence of the two-character pattern `a b`,
modelling Rust `str::find` with a two-byte pattern such as `"(<"`. -/
def findPair (a b : Char) : List Char → Option Nat
  | [] => none
  | [_] => none
  | x :: y :: rest =>
    if x = a ∧ y = b then some 0
    else (findPair a b (y :: rest)).map (· + 1)

/-- Index of the first occurrence of character `c`, modelling `str::find`. -/
def findChar (c : Char) : List Char → Option Nat
  | [] => none
  | x :: rest => if x = c then some 0 else (findChar c rest).map (· + 1)

/-- Index of the last occurrence of character `c`, modelling `str::rfind`. -/
def rfindChar (c : Char) (l : List Char) : Option Nat :=
  match findChar c l.reverse with
  | none => none
  | some i => some (l.length - 1 - i)

/-- ASCII whitespace test; `str::trim` removes Unicode whitespace, of which
only these occur in blame metadata. -/
def isWs (c : Char) : Bool :=
  c = ' ' || c = '\t' || c = '\n' || c = '\r'

/-- Model of `str::trim`. -/
def trimChars (l : List Char) : List Char :=
  ((l.dropWhile isWs).reverse.dropWhile isWs).reverse

/-- Reads exactly `n` decimal digits, returning their value and the rest. -/
def readDigitsAux (acc : Nat) : Nat → List Char → Option (Nat × List Char)
  | 0, l => some (acc, l)
  | _ + 1, [] => none
  | n + 1, c :: l =>
    if c.isDigit then readDigitsAux (acc * 10 + (c.toNat - 48)) n l else none

/-- Reads exactly `n` decimal digits. -/
def readDigits (n : Nat) (l : List Char) : Option (Nat × List Char) :=
  readDigitsAux 0 n l

/-- Consumes one expected character. -/
def expectChar (c : Char) : List Char → Option (List Char)
  | [] => none
  | x :: l => if x = c then some l else none

/-- Leap year test of the proleptic Gregorian calendar. -/
def isLeap (y : Nat) : Bool :=
  y % 4 = 0 && (y % 100 ≠ 0 || y % 400 = 0)

/-- Number of days in a month. -/
def daysInMonth (y m : Nat) : Nat :=
  if m = 2 then (if isLeap y then 29 else 28)
  else if m = 4 ∨ m = 6 ∨ m = 9 ∨ m = 11 then 30
  else 31

/-- Days from 1970-01-01 to the given civil date (standard civil-from-days
inverse; the era arithmetic uses floor division). -/
def daysFromCivil (y : Int) (m d : Nat) : Int :=
  let y' : Int := if m ≤ 2 then y - 1 else y
  let era : Int := Int.fdiv y' 400
  let yoe : Int := y' - era * 400
  let mp : Int := ((m : Int) + 9) % 12
  let doy : Int := Int.fdiv (153 * mp + 2) 5 + (d : Int) - 1
  let doe : Int := yoe * 365 + Int.fdiv yoe 4 - Int.fdiv yoe 100 + doy
  era * 146097 + doe - 719468

/-- Seconds from the Unix epoch to the given civil UTC datetime. -/
def civilToSecs (y : Int) (m d hh mi ss : Nat) : Int :=
  daysFromCivil y m d * 86400 + (hh : Int) * 3600 + (mi : Int) * 60 + (ss : Int)

/-- Reads `n` digits followed by one separator character. -/
def readNumSep (n : Nat) (c : Char) (l : List Char) : Option (Nat × List Char) :=
  match readDigits n l with
  | none => none
  | some (v, l) =>
    match expectChar c l with
    | none => none
    | some l => some (v, l)

/-- Reads the `%F ` (`YYYY-MM-DD` plus the following space) part. -/
def parseDate (s : List Char) : Option (Nat × Nat × Nat × List Char) :=
  match readNumSep 4 '-' s with
  | none => none
  | some (y, s) =>
    match readNumSep 2 '-' s with
    | none => none
    | some (mo, s) =>
      match readNumSep 2 ' ' s with
      | none => none
      | some (d, s) => some (y, mo, d, s)

/-- Reads the `%T ` (`HH:MM:SS` plus the following space) part. -/
def parseTime (s : List Char) : Option (Nat × Nat × Nat × List Char) :=
  match readNumSep 2 ':' s with
  | none => none
  | some (hh, s) =>
    match readNumSep 2 ':' s with
    | none => none
    | some (mi, s) =>
      match readNumSep 2 ' ' s with
      | none => none
      | some (ss, s) => some (hh, mi, ss, s)

/-- Reads the magnitude of a `%z` offset after its sign (an optional colon
between hours and minutes, as chrono's offset scanner allows). -/
def parseOffsetMag (sign : Int) (s : List Char) :
    Option (Int × Nat × Nat × List Char) :=
  match readDigits 2 s with
  | none => none
  | some (oh, s) =>
    let s := match s with
      | ':' :: rest => rest
      | other => other
    match readDigits 2 s with
    | none => none
    | some (om, s) => some (sign, oh, om, s)

/-- Reads a `%z` timezone offset. -/
def parseOffset (s : List Char) : Option (Int × Nat × Nat × List Char) :=
  match s with
  | '+' :: s => parseOffsetMag 1 s
  | '-' :: s => parseOffsetMag (-1) s
  | _ => none

/-- Model of `chrono::DateTime::parse_from_str(s, "%F %T %z")` returning the
parsed instant in seconds since the Unix epoch.  The model accepts the
canonical forms `YYYY-MM-DD HH:MM:SS +HHMM` (an optional colon inside the
offset, as chrono's `%z` scanner allows) and validates field ranges; chrono is
additionally lenient about surrounding whitespace and leap-second 60, which no
statement below depends on. -/
def parseTimestamp (s : List Char) : Option Int :=
  match parseDate s with
  | none => none
  | some (y, mo, d, s) =>
    match parseTime s with
    | none => none
    | some (hh, mi, ss, s) =>
      match parseOffset s with
      | none => none
      | some (sign, oh, om, s) =>
        if s = [] ∧ 1 ≤ mo ∧ mo ≤ 12 ∧ 1 ≤ d ∧ d ≤ daysInMonth y mo ∧
            hh ≤ 23 ∧ mi ≤ 59 ∧ ss ≤ 59 ∧ oh ≤ 23 ∧ om ≤ 59 then
          some (civilToSecs (y : Int) mo d hh mi ss -
            sign * ((oh : Int) * 3600 + (om : Int) * 60))
        else none

/-- Outcome of the structural-extraction part of one `parse_blame` loop
iteration (everything before the window test). -/
inductive ExtractOut where
  | panicked : ExtractOut
  | skip : ExtractOut
  | parsed : List Char → Int → ExtractOut
  deriving DecidableEq

/-- Structural extraction for one physical blame line, translated from the
body of the `for line in blame.split` loop of `parse_blame` in `src/git.rs`
(lines 113-145).  The `continue` branches (empty line, missing markers,
unparsable timestamp) become `skip`; the slice `line[email_start + 1..]`
panics in Rust when `email_start + 1` exceeds the line length, which becomes
`panicked`. -/
def extractLine (line : List Char) : ExtractOut :=
  if line.isEmpty then .skip
  else
    match findPair '(' '<' line with
    | none => .skip
    | some cur =>
      let email_start := cur + 2
      if line.length < email_start + 1 then .panicked
      else
        match findChar '>' (line.drop (email_start + 1)) with
        | none => .skip
        | some cur =>
          let email_end := cur + email_start + 1
          let email := (line.drop email_start).take (email_end - email_start)
          match findChar ')' (line.drop (email_end + 1)) with
          | none => .skip
          | some cur =>
            match rfindChar ' ' ((line.drop (email_end + 1)).take cur) with
            | none => .skip
            | some cur =>
              let timestamp_end := cur + email_end + 1
              let timestamp_str :=
                trimChars ((line.drop (email_end + 1)).take (timestamp_end - (email_end + 1)))
              match parseTimestamp timestamp_str with
              | none => .skip
              | some ts => .parsed email ts

/-- Outcome of one full `parse_blame` loop iteration. -/
inductive LineOut where
  | panicked : LineOut
  | skip : LineOut
  | counted : List Char → LineOut
  deriving DecidableEq

/-- One full loop iteration of `parse_blame`: structural extraction followed
by the window test of `src/git.rs` lines 146-150, which skips the line when
`timestamp < since || asof < timestamp` (chrono's `with_timezone` preserves
the instant, and `DateTime` ordering compares instants). -/
def processLine (since asof : Int) (line : List Char) : LineOut :=
  match extractLine line with
  | .panicked => .panicked
  | .skip => .skip
  | .parsed email ts =>
    if ts < since ∨ asof < ts then .skip else .counted email

/-- Model of `loc.entry(k).or_insert(0); *entry += v` on an association
list: add `v` to the first entry with key `k`, appending when absent. -/
def bump {α : Type} [DecidableEq α] : List (α × Nat) → α → Nat → List (α × Nat)
  | [], k, v => [(k, v)]
  | (k', v') :: rest, k, v =>
    if k' = k then (k', v' + v) :: rest else (k', v') :: bump rest k v

/-- Model of Rust `str::split` with separator `\n`: `n` separators yield
`n + 1` pieces, including empty ones. -/
def splitOnNl : List Char → List (List Char)
  | [] => [[]]
  | c :: rest =>
    if c = '\n' then [] :: splitOnNl rest
    else
      match splitOnNl rest with
      | [] => [[c]]
      | h :: t => (c :: h) :: t

/-- Loop of `parse_blame` over the split lines; a panicking iteration aborts
the whole call (`none`). -/
def parse_blame_go (since asof : Int) :
    List (List Char) → List (List Char × Nat) → Option (List (List Char × Nat))
  | [], acc => some acc
  | l :: rest, acc =>
    match processLine since asof l with
    | .panicked => none
    | .skip => parse_blame_go since asof rest acc
    | .counted email => parse_blame_go since asof rest (bump acc email 1)

/-- Model of `parse_blame` in `src/git.rs` (lines 111-155).  Returns `none`
when some iteration panics (Rust slice-index panic), otherwise the final
accumulator. -/
def parse_blame (blame : List Char) (since asof : Int) :
    Option (List (List Char × Nat)) :=
  parse_blame_go since asof (splitOnNl blame) []

/-- First-occurrence lookup in an association list with a zero default,
matching `HashMap` lookup on the lists produced by `bump`. -/
def getCount {α : Type} [DecidableEq α] : List (α × Nat) → α → Nat
  | [], _ => 0
  | (k', v) :: rest, k => if k' = k then v else getCount rest k

/-- Total of the values carried by all entries with key `k` (for a map with
distinct keys this coincides with `getCount`). -/
def keySum {α : Type} [DecidableEq α] : List (α × Nat) → α → Nat
  | [], _ => 0
  | (k', v) :: rest, k => (if k' = k then v else 0) + keySum rest k

/-- The accumulator has pairwise-distinct keys, as every `HashMap` does. -/
def keysNodup {α β : Type} (l : List (α × β)) : Prop :=
  (l.map Prod.fst).Nodup

/-- Model of the merge loops of `src/git.rs` lines 91-94 and
`src/report.rs` lines 194-197: fold every entry of `delta` into `acc` with
the `entry().or_insert(0) += loc` pattern. -/
def mergeInto {α : Type} [DecidableEq α] (acc delta : List (α × Nat)) :
    List (α × Nat) :=
  delta.foldl (fun a kv => bump a kv.1 kv.2) acc

/-- An entry produced by the directory walker (`walkdir::WalkDir`). -/
structure WalkEntry where
  path : List Char
  isDir : Bool
  isSymlink : Bool
  deriving DecidableEq

/-- Error taxonomy of `blame_stats` and its caller, following the
`io::ErrorKind` values used in `src/git.rs`: an invalid exclude pattern,
a traversal error from the walker, and a failed blame invocation. -/
inductive ScanError where
  | invalidInput : ScanError
  | traversal : ScanError
  | extraction : ScanError
  deriving DecidableEq

/-- Walk loop of `blame_stats` (`src/git.rs` lines 59-95), translated
entry by entry.  `excl` is the compiled `RegexSet` match test, `blameFn` the external
`git blame` invocation.  The model additionally returns the list of paths
passed to `blame`, in call order, and returns `none` when `parse_blame`
panics.  A directory or symlink entry is skipped; a path shorter than two
characters is skipped; otherwise the leading two characters (the `./`
produced by walking `.`) are stripped before exclusion matching. -/
def blame_stats_go (excl : List Char → Bool)
    (blameFn : List Char → Except Unit (List Char)) (since asof : Int) :
    List (Except Unit WalkEntry) → List (List Char) → List (List Char × Nat) →
    Option (List (List Char) × Except ScanError (List (List Char × Nat)))
  | [], calls, acc => some (calls, .ok acc)
  | .error _ :: _, calls, _ => some (calls, .error .traversal)
  | .ok e :: rest, calls, acc =>
    if e.isDir || e.isSymlink then blame_stats_go excl blameFn since asof rest calls acc
    else if e.path.length < 2 then blame_stats_go excl blameFn since asof rest calls acc
    else
      let p := e.path.drop 2
      if excl p then blame_stats_go excl blameFn since asof rest calls acc
      else
        match blameFn p with
        | .error _ => some (calls ++ [p], .error .extraction)
        | .ok text =>
          match parse_blame text since asof with
          | none => none
          | some stats =>
            blame_stats_go excl blameFn since asof rest (calls ++ [p]) (mergeInto acc stats)

/-- Model of `blame_stats` (`src/git.rs` lines 35-98).  `regexResult` is the
outcome of `RegexSet::new(exclude)`, which the function matches on before
anything else; a compilation failure returns an `InvalidInput` error at once,
with no entry examined and no blame call made. -/
def blame_stats (regexResult : Except Unit (List Char → Bool))
    (entries : List (Except Unit WalkEntry))
    (blameFn : List Char → Except Unit (List Char)) (since asof : Int) :
    Option (List (List Char) × Except ScanError (List (List Char × Nat))) :=
  match regexResult with
  | .error _ => some ([], .error .invalidInput)
  | .ok excl => blame_stats_go excl blameFn since asof entries [] []

/-- Whether an `Except` value is `ok`. -/
def exceptIsOk {ε α : Type} : Except ε α → Bool
  | .ok _ => true
  | .error _ => false

/-- Outcome of `repo_loc`: either the merged totals, or a host-process
termination via `std::process::exit`. -/
inductive RepoOutcome where
  | exited : Nat → RepoOutcome
  | ok : List (List Char × Nat) → RepoOutcome
  deriving DecidableEq

/-- Loop of `repo_loc` (`src/report.rs` lines 177-199): for each repository
name in order, announce it (the model records announced names), run the scan
(`blame_stats` with that repository's path and exclude list, abstracted as
`scan`), and on an error print it and call `exit(1)`; on success merge the
per-repository map into the running total. -/
def repo_loc_go (scan : String → Except ScanError (List (List Char × Nat))) :
    List String → List String → List (List Char × Nat) → List String × RepoOutcome
  | [], scanned, acc => (scanned, .ok acc)
  | name :: rest, scanned, acc =>
    match scan name with
    | .error _ => (scanned ++ [name], .exited 1)
    | .ok stats => repo_loc_go scan rest (scanned ++ [name]) (mergeInto acc stats)

/-- Model of `repo_loc` (`src/report.rs` lines 169-201).  The first
component lists the repositories whose scan was started, in order. -/
def repo_loc (repos : List String)
    (scan : String → Except ScanError (List (List Char × Nat))) :
    List String × RepoOutcome :=
  repo_loc_go scan repos [] []

/-- Per-person statistics as produced by the statistics merger.  Modelled
from the spec: the `IndividualStatistics` record of section 3 with the field
names used by `print_individual_stat` in `src/report.rs`; `issues_completed`
may be fractional (`1/N` assignee credit) and is carried as a rational. -/
structure IndividualStatistics where
  bugs_reported : Nat := 0
  issues_opened : Nat := 0
  issues_completed : Rat := 0
  merged_merge_requests_opened : Nat := 0
  merge_request_notes : Nat := 0
  lines_contributed : Nat := 0
  deriving DecidableEq

/-- Lookup in a `BTreeMap<String, String>` modelled as an association list
with distinct keys. -/
def lookupMap : List (String × String) → String → Option String
  | [], _ => none
  | (k, v) :: rest, e => if k = e then some v else lookupMap rest e

/-- Model of `stats.entry(u).or_insert_with(IndividualStats::default)`
followed by `entry.lines_contributed += loc`. -/
def bumpLines :
    List (String × IndividualStatistics) → String → Nat →
    List (String × IndividualStatistics)
  | [], u, loc => [(u, { lines_contributed := loc })]
  | (u', s) :: rest, u, loc =>
    if u' = u then (u', { s with lines_contributed := s.lines_contributed + loc }) :: rest
    else (u', s) :: bumpLines rest u loc

/-- Model of the `lines_contributed` distribution loop of `agenda`
(`src/report.rs` lines 141-150): for every aggregated `(email, loc)` entry,
look the email up in the identity map; unmapped emails are skipped here,
mapped ones add their count to the person's entry. -/
def distribute_loc (totalLoc : List (String × Nat))
    (emailMap : List (String × String))
    (stats : List (String × IndividualStatistics)) :
    List (String × IndividualStatistics) :=
  match totalLoc with
  | [] => stats
  | (e, loc) :: rest =>
    match lookupMap emailMap e with
    | none => distribute_loc rest emailMap stats
    | some u => distribute_loc rest emailMap (bumpLines stats u loc)

/-- Model of `print_unknown_emails` (`src/report.rs` lines 313-331): the
entries of the aggregated map whose email has no identity-map entry, each
reported verbatim with its line count. -/
def unknown_emails (totalLoc : List (String × Nat))
    (emailMap : List (String × String)) : List (String × Nat) :=
  totalLoc.filter (fun kv => (lookupMap emailMap kv.1).isNone)

/-- Sum of all counts of an aggregated mapping. -/
def sum_counts : List (String × Nat) → Nat
  | [] => 0
  | kv :: rest => kv.2 + sum_counts rest

/-- Sum of `lines_contributed` over all per-person entries. -/
def sum_lines : List (String × IndividualStatistics) → Nat
  | [] => 0
  | kv :: rest => kv.2.lines_contributed + sum_lines rest

/-- The per-login counter tuple of `recent_issues_per_login` in
`src/github.rs`: `(usize, usize, f32, usize, f32)`.  The two `f32` slots are
carried as rationals; no statement below makes an exactness claim about them. -/
def Counter : Type := Nat × Nat × Rat × Nat × Rat

instance : DecidableEq Counter := by
  unfold Counter
  infer_instance

/-- The `(0, 0, 0.0, 0, 0.0)` tuple inserted by `or_insert`. -/
def zeroCounter : Counter := (0, 0, 0, 0, 0)

/-- Model of `map.entry(k).or_insert(zero)` followed by updates through the
obtained reference: apply `f` to the first entry with key `k`, inserting a
zero entry first when the key is absent. -/
def modifyEntry {β : Type} (zero : β) :
    List (String × β) → String → (β → β) → List (String × β)
  | [], k, f => [(k, f zero)]
  | (k', v) :: rest, k, f =>
    if k' = k then (k', f v) :: rest else (k', v) :: modifyEntry zero rest k f

/-- One GraphQL issue node as consumed by `recent_issues_per_login`
(`src/github.rs`): the author login when present, the created/closed instants
(already parsed from RFC 3339; the parse itself is outside the claims), the
doubly-optional label-name list, and the optional assignee-login list. -/
structure IssueNode where
  author : Option String
  createdAt : Int
  labels : Option (Option (List (Option String)))
  closedAt : Option Int
  assigneesNodes : Option (List (Option String))

/-- The issue-opening part of one `recent_issues_per_login` loop iteration
(`src/github.rs` lines 210-235): for an issue created at or after `since`,
obtain the author's counter entry; when the label connection and its node
list are present, increment slot 1 only when some label is named `bug`;
when either is absent, increment slot 0; finally increment slot 3 when the
creation time is after `recentSince`. -/
def openingUpdate (since recentSince : Int) (acc : List (String × Counter))
    (n : IssueNode) : List (String × Counter) :=
  if since ≤ n.createdAt then
    let author := match n.author with
      | some login => login
      | none => "unknown"
    modifyEntry zeroCounter acc author fun stat =>
      let stat := match n.labels with
        | some (some lnodes) =>
          if lnodes.any (fun o => match o with
              | some name => name == "bug"
              | none => false) then
            (stat.1, stat.2.1 + 1, stat.2.2)
          else stat
        | some none => (stat.1 + 1, stat.2)
        | none => (stat.1 + 1, stat.2)
      if recentSince < n.createdAt then
        (stat.1, stat.2.1, stat.2.2.1, stat.2.2.2.1 + 1, stat.2.2.2.2)
      else stat
  else acc

/-- The issue-completion part of one `recent_issues_per_login` loop
iteration (`src/github.rs` lines 236-259): for a closed issue with an
assignee node list, count the present assignees and give each of them
`1/total` completion credit, plus `1/total` recently-closed credit when the
close time is after `recentSince`. -/
def closedUpdate (recentSince : Int) (acc : List (String × Counter))
    (n : IssueNode) : List (String × Counter) :=
  match n.closedAt with
  | none => acc
  | some closedAt =>
    match n.assigneesNodes with
    | none => acc
    | some anodes =>
      let total : Rat := ((anodes.countP fun o => o.isSome : Nat) : Rat)
      anodes.foldl (fun acc o =>
        match o with
        | none => acc
        | some login =>
          modifyEntry zeroCounter acc login fun stat =>
            let stat := (stat.1, stat.2.1, stat.2.2.1 + 1 / total, stat.2.2.2)
            if recentSince < closedAt then
              (stat.1, stat.2.1, stat.2.2.1, stat.2.2.2.1, stat.2.2.2.2 + 1 / total)
            else stat) acc

/-- Model of the per-issue counting of `recent_issues_per_login`
(`src/github.rs` lines 181-266) over an already-fetched node list. -/
def recent_issues_per_login (nodes : List IssueNode)
    (since recentSince : Int) : List (String × Counter) :=
  nodes.foldl (fun acc n => closedUpdate recentSince (openingUpdate since recentSince acc n) n) []

/-- The `IndividualStats` record of `src/issue.rs` (lines 250-257). -/
structure IndividualStats where
  bugs_reported : Nat := 0
  issues_completed : Nat := 0
  issues_opened : Nat := 0
  merged_merge_requests_opened : Nat := 0
  merge_request_notes : Nat := 0
  deriving DecidableEq

/-- The all-zero `IndividualStats::default()`. -/
def zeroIndividualStats : IndividualStats := {}

/-- A GitLab issue as consumed by `individual_stats` in `src/issue.rs`. -/
structure GlIssue where
  authorUsername : String
  labels : List String
  createdAt : Int
  closedAt : Option Int
  assignees : Option (List String)

/-- A merged GitLab merge request as consumed by `individual_stats`. -/
structure GlMergeRequest where
  authorUsername : String
  userNotesCount : Nat

/-- Model of `assignee_username` (`src/issue.rs` lines 157-168): the first
assignee, when any. -/
def assignee_username (i : GlIssue) : Option String :=
  match i.assignees with
  | some (a :: _) => some a
  | some [] => none
  | none => none

/-- The per-issue update of `individual_stats` (`src/issue.rs` lines
265-289): an issue created after `since` increments its author's
`bugs_reported` when labelled `bug` and `issues_opened` otherwise; an issue
closed after `since` credits its first assignee with one completion. -/
def individualIssueUpdate (since : Int)
    (stats : List (String × IndividualStats)) (issue : GlIssue) :
    List (String × IndividualStats) :=
  let stats :=
    if since < issue.createdAt then
      if issue.labels.contains "bug" then
        modifyEntry zeroIndividualStats stats issue.authorUsername
          (fun s => { s with bugs_reported := s.bugs_reported + 1 })
      else
        modifyEntry zeroIndividualStats stats issue.authorUsername
          (fun s => { s with issues_opened := s.issues_opened + 1 })
    else stats
  match issue.closedAt with
  | some closedAt =>
    if since < closedAt then
      match assignee_username issue with
      | some username =>
        modifyEntry zeroIndividualStats stats username
          (fun s => { s with issues_completed := s.issues_completed + 1 })
      | none => stats
    else stats
  | none => stats

/-- Model of `individual_stats` (`src/issue.rs` lines 259-298). -/
def individual_stats (issues : List GlIssue)
    (merge_requests : List GlMergeRequest) (since : Int) :
    List (String × IndividualStats) :=
  let stats := issues.foldl (individualIssueUpdate since) []
  merge_requests.foldl (fun stats mr =>
    modifyEntry zeroIndividualStats stats mr.authorUsername
      (fun s => { s with
        merged_merge_requests_opened := s.merged_merge_requests_opened + 1,
        merge_request_notes := s.merge_request_notes + mr.userNotesCount })) stats

/-! Concrete inputs used below.  The window is the one of the spec's
end-to-end example: `[2024-01-01T00:00:00Z, 2024-01-04T00:00:00Z]`. -/

/-- Window start `2024-01-01T00:00:00Z` of the spec's example. -/
def sinceEx : Int := civilToSecs 2024 1 1 0 0 0

/-- Window end `2024-01-04T00:00:00Z` of the spec's example. -/
def asofEx : Int := civilToSecs 2024 1 4 0 0 0

/-- The spec's example blame line attributed to alice. -/
def aliceLine : List Char :=
  "(<alice@example.com> 2024-01-02 10:00:00 +0000 1) foo".data

/-- The instant of `aliceLine`'s timestamp. -/
def aliceTs : Int := civilToSecs 2024 1 2 10 0 0

/-- A blame line whose timestamp is exactly the window end `asofEx`. -/
def asofLine : List Char :=
  "(<alice@example.com> 2024-01-04 00:00:00 +0000 1) x".data

/-- The spec's two-line end-to-end blame text. -/
def c7Text : List Char :=
  ("(<alice@example.com> 2024-01-02 10:00:00 +0000 1) foo\n" ++
    "(<bob@example.com> 2024-01-05 10:00:00 +0000 2) bar").data

/-- C1, counterexample to the half-open convention: a line whose timestamp
is exactly `asof` is counted (contributes 1, not 0) by `parse_blame`. -/
theorem C1_counterexample :
    parse_blame asofLine sinceEx asofEx = some [("alice@example.com".data, 1)] ∧
    extractLine asofLine = .parsed "alice@example.com".data asofEx := by
  exact ⟨by decide, by decide⟩

/-- C1 (amended): for every blame line whose structural extraction and
timestamp parse succeed, the line is counted for its email if and only if it
passes the closed window membership test `since ≤ timestamp ≤ asof`; a line
strictly before `since` or strictly after `asof` contributes nothing. -/
theorem C1_window_closed (since asof : Int) (line email : List Char) (ts : Int)
    (h : extractLine line = .parsed email ts) :
    processLine since asof line = .counted email ↔ since ≤ ts ∧ ts ≤ asof := by
  simp only [processLine, h]
  by_cases hc : ts < since ∨ asof < ts
  · simp only [if_pos hc]
    constructor
    · intro hk
      exact absurd hk (by simp)
    · intro hk
      omega
  · simp only [if_neg hc]
    constructor
    · intro _
      omega
    · intro _
      trivial

/-- Witness for C1: the spec's in-window alice line is counted. -/
theorem C1_window_closed_witness :
    processLine sinceEx asofEx aliceLine = .counted "alice@example.com".data :=
  (C1_window_closed sinceEx asofEx aliceLine "alice@example.com".data aliceTs
    (by decide)).mpr (by decide)

/-- C4: evaluation of the parser at the failing input.  On the single line
`(<` the Rust code computes `email_start = 2` and evaluates
`line[email_start + 1..]`, i.e. `line[3..]` on a two-byte line, which
panics (byte index out of bounds) instead of skipping the malformed line. -/
theorem C4_panic_on_marker_at_eol : parse_blame "(<".data 0 0 = none := by
  decide

/-- C7: the spec's end-to-end example.  Parsing the two blame lines under
the window `[2024-01-01T00:00:00Z, 2024-01-04T00:00:00Z]` yields exactly the
mapping with alice at 1: alice's email is extracted between the markers, her
timestamp parses and lies in the window, and bob's line increments nothing. -/
theorem C7_end_to_end :
    parse_blame c7Text sinceEx asofEx = some [("alice@example.com".data, 1)] := by
  decide

theorem getCount_bump {α : Type} [DecidableEq α] (l : List (α × Nat))
    (k : α) (v : Nat) (k' : α) :
    getCount (bump l k v) k' = getCount l k' + (if k = k' then v else 0) := by
  induction l with
  | nil =>
    simp only [bump, getCount]
    split_ifs <;> simp_all [getCount]
  | cons hd tl ih =>
    obtain ⟨k₀, v₀⟩ := hd
    simp only [bump, getCount]
    split_ifs <;> simp_all [getCount]

theorem keySum_bump {α : Type} [DecidableEq α] (l : List (α × Nat))
    (k : α) (v : Nat) (k' : α) :
    keySum (bump l k v) k' = keySum l k' + (if k = k' then v else 0) := by
  induction l with
  | nil =>
    simp only [bump, keySum]
    split_ifs <;> simp_all [keySum]
  | cons hd tl ih =>
    obtain ⟨k₀, v₀⟩ := hd
    simp only [bump, keySum]
    split_ifs <;> simp_all [keySum]
    all_goals omega

theorem getCount_mergeInto {α : Type} [DecidableEq α] (d : List (α × Nat)) :
    ∀ (acc : List (α × Nat)) (k : α),
      getCount (mergeInto acc d) k = getCount acc k + keySum d k := by
  induction d with
  | nil =>
    intro acc k
    simp [mergeInto, keySum]
  | cons hd tl ih =>
    intro acc k
    obtain ⟨k₀, v₀⟩ := hd
    have hstep : mergeInto acc ((k₀, v₀) :: tl) = mergeInto (bump acc k₀ v₀) tl := rfl
    rw [hstep, ih, getCount_bump]
    simp only [keySum]
    omega

theorem keySum_mergeInto {α : Type} [DecidableEq α] (d : List (α × Nat)) :
    ∀ (acc : List (α × Nat)) (k : α),
      keySum (mergeInto acc d) k = keySum acc k + keySum d k := by
  induction d with
  | nil =>
    intro acc k
    simp [mergeInto, keySum]
  | cons hd tl ih =>
    intro acc k
    obtain ⟨k₀, v₀⟩ := hd
    have hstep : mergeInto acc ((k₀, v₀) :: tl) = mergeInto (bump acc k₀ v₀) tl := rfl
    rw [hstep, ih, keySum_bump]
    simp only [keySum]
    omega

theorem keySum_of_not_mem {α : Type} [DecidableEq α] (l : List (α × Nat)) (k : α)
    (h : k ∉ l.map Prod.fst) : keySum l k = 0 := by
  induction l with
  | nil => rfl
  | cons hd tl ih =>
    obtain ⟨k₀, v₀⟩ := hd
    simp only [List.map, List.mem_cons] at h
    push_neg at h
    simp only [keySum]
    rw [if_neg (fun hk => h.1 hk.symm), ih h.2]

theorem getCount_eq_keySum {α : Type} [DecidableEq α] (l : List (α × Nat)) (k : α)
    (h : (l.map Prod.fst).Nodup) : getCount l k = keySum l k := by
  induction l with
  | nil => rfl
  | cons hd tl ih =>
    obtain ⟨k₀, v₀⟩ := hd
    simp only [List.map, List.nodup_cons] at h
    simp only [getCount, keySum]
    by_cases hk : k₀ = k
    · subst hk
      rw [if_pos rfl, if_pos rfl, keySum_of_not_mem tl k₀ h.1]
      omega
    · rw [if_neg hk, if_neg hk, ih h.2]
      omega

/-- C6: merging accumulators by elementwise addition over the union of keys
is commutative (on accumulators with pairwise-distinct keys, as every
`HashMap` has) and associative, where equality of totals is extensional
(every key's final count agrees); and merging the map with a at 5 into the
map with a at 3 and b at 2 yields the map with a at 8 and b at 2. -/
theorem C6_merge_comm_assoc :
    (∀ a b : List (String × Nat), (a.map Prod.fst).Nodup → (b.map Prod.fst).Nodup →
      ∀ k, getCount (mergeInto a b) k = getCount (mergeInto b a) k) ∧
    (∀ a b c : List (String × Nat), ∀ k,
      getCount (mergeInto (mergeInto a b) c) k =
        getCount (mergeInto a (mergeInto b c)) k) ∧
    mergeInto [("a", 5)] [("a", 3), ("b", 2)] = [("a", 8), ("b", 2)] := by
  refine ⟨?_, ?_, by decide⟩
  · intro a b ha hb k
    rw [getCount_mergeInto, getCount_mergeInto, getCount_eq_keySum a k ha,
      getCount_eq_keySum b k hb]
    omega
  · intro a b c k
    rw [getCount_mergeInto, getCount_mergeInto, getCount_mergeInto,
      keySum_mergeInto]
    omega

/-- Witness for C6: commutativity applied to the spec's example maps. -/
theorem C6_merge_comm_assoc_witness :
    getCount (mergeInto [("a", 5)] [("a", 3), ("b", 2)]) "a" =
      getCount (mergeInto [("a", 3), ("b", 2)] [("a", 5)]) "a" :=
  C6_merge_comm_assoc.1 [("a", 5)] [("a", 3), ("b", 2)] (by decide) (by decide) "a"

theorem sum_lines_bumpLines (st : List (String × IndividualStatistics))
    (u : String) (loc : Nat) :
    sum_lines (bumpLines st u loc) = sum_lines st + loc := by
  induction st with
  | nil => simp [bumpLines, sum_lines]
  | cons hd tl ih =>
    obtain ⟨u₀, s₀⟩ := hd
    simp only [bumpLines]
    split_ifs <;> simp_all [sum_lines] <;> omega

theorem distribute_conservation (tl : List (String × Nat)) :
    ∀ (em : List (String × String)) (st : List (String × IndividualStatistics)),
      sum_lines (distribute_loc tl em st) + sum_counts (unknown_emails tl em) =
        sum_lines st + sum_counts tl := by
  induction tl with
  | nil =>
    intro em st
    simp [distribute_loc, unknown_emails, sum_counts]
  | cons hd tlr ih =>
    intro em st
    obtain ⟨e, loc⟩ := hd
    cases hl : lookupMap em e with
    | none =>
      have hd1 : distribute_loc ((e, loc) :: tlr) em st = distribute_loc tlr em st := by
        simp [distribute_loc, hl]
      have hu1 : unknown_emails ((e, loc) :: tlr) em =
          (e, loc) :: unknown_emails tlr em := by
        simp [unknown_emails, hl]
      rw [hd1, hu1]
      have := ih em st
      simp only [sum_counts] at *
      omega
    | some u =>
      have hd1 : distribute_loc ((e, loc) :: tlr) em st =
          distribute_loc tlr em (bumpLines st u loc) := by
        simp [distribute_loc, hl]
      have hu1 : unknown_emails ((e, loc) :: tlr) em = unknown_emails tlr em := by
        simp [unknown_emails, hl]
      rw [hd1, hu1]
      have := ih em (bumpLines st u loc)
      rw [sum_lines_bumpLines] at this
      simp only [sum_counts] at *
      omega

theorem sum_lines_zero (st : List (String × IndividualStatistics))
    (h : ∀ p ∈ st, p.2.lines_contributed = 0) : sum_lines st = 0 := by
  induction st with
  | nil => rfl
  | cons hd tl ih =>
    simp only [sum_lines]
    rw [h hd (List.mem_cons_self hd tl), ih (fun p hp => h p (List.mem_cons_of_mem hd hp))]

/-- C3: for every aggregated email-to-line-count mapping, every identity map
and every initial statistics table whose `lines_contributed` fields are all
zero (as produced by `individual_stats`, which never touches that field),
the sum of `lines_contributed` after the distribution loop plus the sum of
the counts in the unmapped-emails report equals the sum of all aggregated
counts; and every aggregated entry whose email has no identity-map entry
appears verbatim in the unmapped report. -/
theorem C3_conservation (totalLoc : List (String × Nat))
    (emailMap : List (String × String))
    (stats0 : List (String × IndividualStatistics))
    (h : ∀ p ∈ stats0, p.2.lines_contributed = 0) :
    (sum_lines (distribute_loc totalLoc emailMap stats0) +
      sum_counts (unknown_emails totalLoc emailMap) = sum_counts totalLoc) ∧
    ∀ e loc, (e, loc) ∈ totalLoc → lookupMap emailMap e = none →
      (e, loc) ∈ unknown_emails totalLoc emailMap := by
  constructor
  · rw [distribute_conservation, sum_lines_zero stats0 h]
    omega
  · intro e loc hmem hnone
    simp [unknown_emails, List.mem_filter, hmem, hnone]

/-- Concrete aggregated mapping for the C3 witness. -/
def tlC3 : List (String × Nat) := [("a@x", 5), ("b@y", 7)]

/-- Concrete identity map for the C3 witness; `b@y` is unmapped. -/
def emC3 : List (String × String) := [("a@x", "alice")]

/-- Concrete initial statistics table for the C3 witness. -/
def st0C3 : List (String × IndividualStatistics) := [("carol", {})]

/-- Witness for C3 at a concrete run: 5 mapped lines plus 7 unmapped lines
account for the full total of 12, and the unmapped email surfaces. -/
theorem C3_conservation_witness :
    (sum_lines (distribute_loc tlC3 emC3 st0C3) +
      sum_counts (unknown_emails tlC3 emC3) = sum_counts tlC3) ∧
    ("b@y", 7) ∈ unknown_emails tlC3 emC3 :=
  ⟨(C3_conservation tlC3 emC3 st0C3 (by decide)).1,
    (C3_conservation tlC3 emC3 st0C3 (by decide)).2 "b@y" 7 (by decide) (by decide)⟩

theorem blame_stats_go_mem (excl : List Char → Bool)
    (blameFn : List Char → Except Unit (List Char)) (since asof : Int) :
    ∀ (entries : List (Except Unit WalkEntry)) (calls0 : List (List Char))
      (acc : List (List Char × Nat)) (calls : List (List Char))
      (res : Except ScanError (List (List Char × Nat))),
      blame_stats_go excl blameFn since asof entries calls0 acc = some (calls, res) →
      ∀ p ∈ calls, p ∈ calls0 ∨ ∃ e : WalkEntry, Except.ok e ∈ entries ∧
        e.isDir = false ∧ e.isSymlink = false ∧ 2 ≤ e.path.length ∧
        p = e.path.drop 2 ∧ excl p = false := by
  intro entries
  induction entries with
  | nil =>
    intro calls0 acc calls res h p hp
    simp only [blame_stats_go, Option.some.injEq, Prod.mk.injEq] at h
    exact Or.inl (h.1 ▸ hp)
  | cons hd tl ih =>
    intro calls0 acc calls res h p hp
    cases hd with
    | error u =>
      simp only [blame_stats_go, Option.some.injEq, Prod.mk.injEq] at h
      exact Or.inl (h.1 ▸ hp)
    | ok e =>
      simp only [blame_stats_go] at h
      by_cases h1 : (e.isDir || e.isSymlink) = true
      · rw [if_pos h1] at h
        rcases ih calls0 acc calls res h p hp with hin | ⟨e', he', hrest⟩
        · exact Or.inl hin
        · exact Or.inr ⟨e', List.mem_cons_of_mem _ he', hrest⟩
      · rw [if_neg h1] at h
        by_cases h2 : e.path.length < 2
        · rw [if_pos h2] at h
          rcases ih calls0 acc calls res h p hp with hin | ⟨e', he', hrest⟩
          · exact Or.inl hin
          · exact Or.inr ⟨e', List.mem_cons_of_mem _ he', hrest⟩
        · rw [if_neg h2] at h
          by_cases h3 : excl (e.path.drop 2) = true
          · rw [if_pos h3] at h
            rcases ih calls0 acc calls res h p hp with hin | ⟨e', he', hrest⟩
            · exact Or.inl hin
            · exact Or.inr ⟨e', List.mem_cons_of_mem _ he', hrest⟩
          · rw [if_neg h3] at h
            have hflags : e.isDir = false ∧ e.isSymlink = false := by
              constructor <;> revert h1 <;> cases e.isDir <;> cases e.isSymlink <;> simp
            have hgood : ∀ q ∈ calls0 ++ [e.path.drop 2],
                q ∈ calls0 ∨ ∃ e' : WalkEntry, Except.ok e' ∈ Except.ok e :: tl ∧
                  e'.isDir = false ∧ e'.isSymlink = false ∧ 2 ≤ e'.path.length ∧
                  q = e'.path.drop 2 ∧ excl q = false := by
              intro q hq
              rcases List.mem_append.1 hq with hq0 | hq1
              · exact Or.inl hq0
              · refine Or.inr ⟨e, List.mem_cons_self _ _, hflags.1, hflags.2, by omega,
                  List.mem_singleton.1 hq1, ?_⟩
                rw [List.mem_singleton.1 hq1]
                revert h3
                cases excl (e.path.drop 2) <;> simp
            cases hbf : blameFn (e.path.drop 2) with
            | error u =>
              rw [hbf] at h
              simp only [Option.some.injEq, Prod.mk.injEq] at h
              exact hgood p (h.1 ▸ hp)
            | ok text =>
              cases hpb : parse_blame text since asof with
              | none =>
                simp [hbf, hpb] at h
              | some stats =>
                simp only [hbf, hpb] at h
                rcases ih (calls0 ++ [e.path.drop 2]) (mergeInto acc stats) calls res h p hp with
                  hin | ⟨e', he', hrest⟩
                · exact hgood p hin
                · exact Or.inr ⟨e', List.mem_cons_of_mem _ he', hrest⟩

/-- The compiled form of the default exclusion pattern `^LICENSE$` of
`src/report.rs`: anchored at both ends and containing only literal
characters, this regex matches exactly the string `LICENSE` (the Rust regex
crate's `$` matches only at the end of the haystack outside multi-line
mode). -/
def licExcl : List Char → Bool := fun p => p == "LICENSE".data

/-- The two walker entries of the C5 example: the repository-root `LICENSE`
and `vendor/LICENSE`, both regular files, as `WalkDir::new(".")` reports
them. -/
def licEntries : List (Except Unit WalkEntry) :=
  [.ok ⟨"./LICENSE".data, false, false⟩, .ok ⟨"./vendor/LICENSE".data, false, false⟩]

/-- C5: in any run of the scan loop, every path passed to the blame call
(and hence the only text ever handed to the parser) comes from a walker
entry that is neither a directory nor a symlink, equals that entry's path
with the leading two characters (`./`) removed, and fails the exclusion
test; and on the concrete `^LICENSE$` example the root `LICENSE` file is
excluded while `vendor/LICENSE` is blamed. -/
theorem C5_exclusion_filtering :
    (∀ (excl : List Char → Bool) (blameFn : List Char → Except Unit (List Char))
      (since asof : Int) (entries : List (Except Unit WalkEntry))
      (calls : List (List Char)) (res : Except ScanError (List (List Char × Nat))),
      blame_stats (.ok excl) entries blameFn since asof = some (calls, res) →
      ∀ p ∈ calls, ∃ e : WalkEntry, Except.ok e ∈ entries ∧ e.isDir = false ∧
        e.isSymlink = false ∧ 2 ≤ e.path.length ∧ p = e.path.drop 2 ∧
        excl p = false) ∧
    blame_stats (.ok licExcl) licEntries (fun _ => .ok []) 0 0 =
      some (["vendor/LICENSE".data], .ok []) := by
  constructor
  · intro excl blameFn since asof entries calls res h p hp
    rcases blame_stats_go_mem excl blameFn since asof entries [] [] calls res h p hp with
      hin | hex
    · simp at hin
    · exact hex
  · rfl

/-- Witness for C5: the blamed path `vendor/LICENSE` of the example run
traces back to a regular-file entry that the exclusion test does not match. -/
theorem C5_exclusion_filtering_witness :
    ∃ e : WalkEntry, Except.ok e ∈ licEntries ∧ e.isDir = false ∧
      e.isSymlink = false ∧ 2 ≤ e.path.length ∧
      "vendor/LICENSE".data = e.path.drop 2 ∧
      licExcl "vendor/LICENSE".data = false :=
  C5_exclusion_filtering.1 licExcl (fun _ => .ok []) 0 0 licEntries
    ["vendor/LICENSE".data] (.ok []) C5_exclusion_filtering.2
    "vendor/LICENSE".data (by decide)

theorem repo_loc_go_exits (scan : String → Except ScanError (List (List Char × Nat))) :
    ∀ (pre : List String) (name : String) (post scanned : List String)
      (acc : List (List Char × Nat)),
      (∀ n ∈ pre, exceptIsOk (scan n) = true) → exceptIsOk (scan name) = false →
      repo_loc_go scan (pre ++ name :: post) scanned acc =
        (scanned ++ pre ++ [name], .exited 1) := by
  intro pre
  induction pre with
  | nil =>
    intro name post scanned acc hpre hname
    cases hscan : scan name with
    | error err => simp [repo_loc_go, hscan]
    | ok stats =>
      rw [hscan] at hname
      simp [exceptIsOk] at hname
  | cons hd tlr ih =>
    intro name post scanned acc hpre hname
    have hhd := hpre hd (List.mem_cons_self hd tlr)
    cases hscan : scan hd with
    | error err =>
      rw [hscan] at hhd
      simp [exceptIsOk] at hhd
    | ok stats =>
      have hstep : repo_loc_go scan ((hd :: tlr) ++ name :: post) scanned acc =
          repo_loc_go scan (tlr ++ name :: post) (scanned ++ [hd]) (mergeInto acc stats) := by
        simp [repo_loc_go, hscan]
      rw [hstep, ih name post (scanned ++ [hd]) (mergeInto acc stats)
        (fun n hn => hpre n (List.mem_cons_of_mem hd hn)) hname]
      simp

/-- Scan stub of the C2 counterexample: the first repository fails, the
second would succeed with one attributed line. -/
def scanC2 : String → Except ScanError (List (List Char × Nat)) :=
  fun n => if n = "r1" then .error .traversal else .ok [("a".data, 1)]

/-- C2, counterexample: with two repositories where the first one's scan
fails, `repo_loc` terminates the host process (`exit(1)`) and the sibling
repository `r2` is never scanned, contrary to the claim that the caller
completes the sibling scans and that nothing terminates the process. -/
theorem C2_counterexample :
    repo_loc ["r1", "r2"] scanC2 = (["r1"], .exited 1) ∧
    "r2" ∉ (repo_loc ["r1", "r2"] scanC2).1 := by
  exact ⟨by decide, by decide⟩

/-- C2 (amended): `blame_stats` does return an error value to its caller
(a traversal failure yields an `Err`, with no process exit in `blame_stats`
itself), but on receiving any scan error the caller `repo_loc` terminates
the host process with exit code 1; the repositories after the failing one
are never scanned. -/
theorem C2_error_propagation_exit :
    (∀ (excl : List Char → Bool) (blameFn : List Char → Except Unit (List Char))
      (since asof : Int) (rest : List (Except Unit WalkEntry)),
      blame_stats (.ok excl) (.error () :: rest) blameFn since asof =
        some ([], .error .traversal)) ∧
    (∀ (scan : String → Except ScanError (List (List Char × Nat)))
      (pre : List String) (name : String) (post : List String),
      (∀ n ∈ pre, exceptIsOk (scan n) = true) → exceptIsOk (scan name) = false →
      repo_loc (pre ++ name :: post) scan = (pre ++ [name], .exited 1)) := by
  constructor
  · intro excl blameFn since asof rest
    rfl
  · intro scan pre name post hpre hname
    have := repo_loc_go_exits scan pre name post [] [] hpre hname
    simpa [repo_loc] using this

/-- Scan stub of the C2 witness: the middle repository fails. -/
def scanC2w : String → Except ScanError (List (List Char × Nat)) :=
  fun n => if n = "r2" then .error .traversal else .ok [("a".data, 1)]

/-- Witness for C2 (amended): a three-repository run whose middle scan
fails announces `r1` and `r2` and exits; `r3` is never scanned. -/
theorem C2_error_propagation_exit_witness :
    repo_loc (["r1"] ++ "r2" :: ["r3"]) scanC2w = (["r1"] ++ ["r2"], .exited 1) :=
  C2_error_propagation_exit.2 scanC2w ["r1"] "r2" ["r3"] (by decide) (by decide)

/-- C10: when `RegexSet::new` fails on the supplied exclusion patterns,
`blame_stats` returns an `InvalidInput` error before examining any walker
entry or invoking blame: the list of blame calls is empty and no counts are
produced, whatever the entries, the blame behaviour and the window are. -/
theorem C10_invalid_pattern (entries : List (Except Unit WalkEntry))
    (blameFn : List Char → Except Unit (List Char)) (since asof : Int) :
    blame_stats (.error ()) entries blameFn since asof =
      some ([], .error .invalidInput) := rfl

/-- C8: evaluation at the failing input.  An issue created inside the
counting window whose fetched label list is present but contains no label
named `bug` increments neither of its author's two opening counters in
`recent_issues_per_login` (the author's tuple stays all-zero), whereas the
sibling `individual_stats` in `src/issue.rs` increments exactly one counter
(`issues_opened`) for the analogous issue. -/
theorem C8_label_counter_gap :
    recent_issues_per_login
      [{ author := some "alice", createdAt := 10,
         labels := some (some [some "enhancement"]), closedAt := none,
         assigneesNodes := none }] 0 1000 = [("alice", zeroCounter)] ∧
    individual_stats
      [{ authorUsername := "alice", labels := ["enhancement"], createdAt := 10,
         closedAt := none, assignees := none }] [] 0 =
      [("alice", { issues_opened := 1 })] := by
  exact ⟨by decide, by decide⟩

end Pbmetric

